import Mathlib

/-!
Verification of the Storybook generation pipeline.

This file gives a shallow embedding of the service layer and the page-level
controller of the storybook application (request queue, retry with backoff,
per-page generation state, audio decoding, playback auto-advance, video
duration derivation and PDF layout), and proves or refutes the specified
properties about them.

Conventions of the embedding:
* JavaScript optional fields become `Option`;
* byte arrays become `List Nat` with entries taken mod 256 where it matters;
* fractional durations are rational numbers;
* asynchronous code becomes explicit event sequences over a step relation,
  where each synchronous stretch of the source (between suspension points)
  is one atomic step.
-/

namespace Storybook

/-! ### Substring search (JavaScript `String.prototype.includes`) -/

/-- Does list `p` occur at the head of `l`? (helper for substring search). -/
def headMatch : List Char → List Char → Bool
  | [], _ => true
  | _ :: _, [] => false
  | p :: ps, c :: cs => p == c && headMatch ps cs

/-- Does `p` occur contiguously anywhere inside `l`? -/
def subSearch (p : List Char) : List Char → Bool
  | [] => headMatch p []
  | c :: cs => headMatch p (c :: cs) || subSearch p cs

/-- `strIncludes s pat` models JavaScript `s.includes(pat)`:
case-sensitive contiguous substring test. -/
def strIncludes (s pat : String) : Bool :=
  subSearch pat.toList s.toList

theorem headMatch_iff (p l : List Char) :
    headMatch p l = true ↔ ∃ t, l = p ++ t := by
  induction p generalizing l with
  | nil => simp [headMatch]
  | cons a ps ih =>
    cases l with
    | nil =>
      simp [headMatch]
    | cons c cs =>
      simp only [headMatch, Bool.and_eq_true, beq_iff_eq, ih]
      constructor
      · rintro ⟨rfl, t, rfl⟩
        exact ⟨t, rfl⟩
      · rintro ⟨t, h⟩
        rw [List.cons_append] at h
        obtain ⟨h1, h2⟩ := List.cons.injEq .. ▸ h
        exact ⟨h1.symm, t, h2⟩

theorem subSearch_iff (p l : List Char) :
    subSearch p l = true ↔ ∃ u v, l = u ++ p ++ v := by
  induction l with
  | nil =>
    simp only [subSearch, headMatch_iff]
    constructor
    · rintro ⟨t, h⟩
      exact ⟨[], t, by simpa using h⟩
    · rintro ⟨u, v, h⟩
      have hu : u = [] := by
        cases u with
        | nil => rfl
        | cons a as => simp at h
      subst hu
      exact ⟨v, by simpa using h⟩
  | cons c cs ih =>
    simp only [subSearch, Bool.or_eq_true, headMatch_iff, ih]
    constructor
    · rintro (⟨t, h⟩ | ⟨u, v, h⟩)
      · exact ⟨[], t, by simpa using h⟩
      · exact ⟨c :: u, v, by simp [h]⟩
    · rintro ⟨u, v, h⟩
      cases u with
      | nil =>
        left
        exact ⟨v, by simpa using h⟩
      | cons a as =>
        right
        rw [List.cons_append, List.cons_append] at h
        obtain ⟨-, h2⟩ := List.cons.injEq .. ▸ h
        exact ⟨as, v, by simp [h2]⟩

/-- Substring containment as a proposition, stated the way the spec words it:
`pat` occurs as a contiguous (case-sensitive) substring of `s`. -/
def SpecSubstring (s pat : String) : Prop :=
  ∃ u v, s.toList = u ++ pat.toList ++ v

theorem strIncludes_iff (s pat : String) :
    strIncludes s pat = true ↔ SpecSubstring s pat :=
  subSearch_iff pat.toList s.toList

/-! ### Errors and `retryWithBackoff` (`src/services/geminiService.ts`) -/

/-- The shape of a JavaScript error value as inspected by `retryWithBackoff`:
an optional numeric `status`, an optional numeric `code`, and an optional
`message` string (`undefined` or empty modelled as `none` / `some ""`). -/
structure JsError where
  status : Option Nat
  code : Option Nat
  message : Option String
deriving DecidableEq, Repr

/-- `isQuotaError`, embedded from the classification in `retryWithBackoff`:
`error.status === 429 || error.code === 429 || (error.message &&
(error.message.includes('429') || error.message.includes('quota') ||
error.message.includes('RESOURCE_EXHAUSTED')))`.
A JS `undefined` or empty message is falsy, so the message clause is skipped;
an empty string contains no nonempty pattern, so modelling the guard as a
match on `Option String` is exact. -/
def isQuotaError (e : JsError) : Bool :=
  e.status == some 429 || e.code == some 429 ||
    (match e.message with
     | some m =>
         strIncludes m "429" || strIncludes m "quota" ||
           strIncludes m "RESOURCE_EXHAUSTED"
     | none => false)

/-- The spec-side description of a transient-capacity error, written from the
spec's words: reports HTTP status 429, a backend error code 429, or a message
containing the case-sensitive substring "429", "quota" or
"RESOURCE_EXHAUSTED". -/
def TransientCapacity (e : JsError) : Prop :=
  e.status = some 429 ∨ e.code = some 429 ∨
    ∃ m, e.message = some m ∧
      (SpecSubstring m "429" ∨ SpecSubstring m "quota" ∨
        SpecSubstring m "RESOURCE_EXHAUSTED")

theorem isQuotaError_iff (e : JsError) :
    isQuotaError e = true ↔ TransientCapacity e := by
  unfold isQuotaError TransientCapacity
  cases e with
  | mk status code message =>
    cases message with
    | none =>
      simp [strIncludes_iff]
    | some m =>
      simp [strIncludes_iff, or_assoc]

/-- Embedding of `retryWithBackoff fn retries delay` from
`src/services/geminiService.ts` (defaults in the source: `retries = 3`,
`delay = 2000`).  The successive attempt outcomes of `fn` are supplied as a
function from the attempt index; the result also returns the list of waits
performed (in milliseconds, in order), so the timing schedule is observable:

```
try { return await fn(); } catch (error) {
  if (isQuotaError && retries > 0) {
    await sleep(delay);
    return retryWithBackoff(fn, retries - 1, delay * 2);
  }
  throw error;
}
``` -/
def retryWithBackoff {α : Type} (fn : Nat → Except JsError α) :
    Nat → Nat → Nat → Except JsError α × List Nat
  | k, 0, _ =>
    -- `retries > 0` fails, so a failure is rethrown no matter how classified
    (match fn k with
     | .ok a => (.ok a, [])
     | .error e => (.error e, []))
  | k, r + 1, delay =>
    (match fn k with
     | .ok a => (.ok a, [])
     | .error e =>
       if isQuotaError e then
         let p := retryWithBackoff fn (k + 1) r (delay * 2)
         (p.1, delay :: p.2)
       else
         (.error e, []))

/-- Number of times the wrapped operation is invoked: one initial attempt
plus one per recorded wait. -/
def attemptCount {α : Type} (fn : Nat → Except JsError α)
    (retries delay : Nat) : Nat :=
  (retryWithBackoff fn 0 retries delay).2.length + 1

theorem retryWithBackoff_all_transient {α : Type} (errs : Nat → JsError)
    (h : ∀ j, isQuotaError (errs j) = true) :
    ∀ (r k d : Nat),
      retryWithBackoff (α := α) (fun j => .error (errs j)) k r d =
        (.error (errs (k + r)), (List.range r).map (fun i => d * 2 ^ i)) := by
  intro r
  induction r with
  | zero => intro k d; simp [retryWithBackoff]
  | succ n ih =>
    intro k d
    show (if isQuotaError (errs k) then _ else _) = _
    rw [if_pos (h k), ih (k + 1) (d * 2)]
    have h1 : k + 1 + n = k + (n + 1) := by omega
    have h2 : d :: (List.range n).map (fun i => d * 2 * 2 ^ i) =
        (List.range (n + 1)).map (fun i => d * 2 ^ i) := by
      rw [List.range_succ_eq_map, List.map_cons, List.map_map]
      refine congrArg₂ _ (by simp) (List.map_congr_left ?_)
      intro i _
      simp only [Function.comp_apply, Nat.succ_eq_add_one, Nat.pow_succ]
      ring
    rw [h1]
    exact congrArg _ h2

theorem retryWithBackoff_zero {α : Type} (fn : Nat → Except JsError α)
    (k d : Nat) (e : JsError) (hk : fn k = .error e) :
    retryWithBackoff fn k 0 d = (.error e, []) := by
  unfold retryWithBackoff
  rw [hk]

theorem retryWithBackoff_succ_error {α : Type} (fn : Nat → Except JsError α)
    (k r d : Nat) (e : JsError) (hk : fn k = .error e) :
    retryWithBackoff fn k (r + 1) d =
      if isQuotaError e then
        ((retryWithBackoff fn (k + 1) r (d * 2)).1,
          d :: (retryWithBackoff fn (k + 1) r (d * 2)).2)
      else
        (.error e, []) := by
  show (match fn k with
    | Except.ok a => ((Except.ok a : Except JsError α), ([] : List Nat))
    | Except.error e =>
      if isQuotaError e then
        let p := retryWithBackoff fn (k + 1) r (d * 2)
        (p.1, d :: p.2)
      else
        (Except.error e, [])) = _
  rw [hk]

/-- C2.  Backoff monotonicity and attempt count: when every attempt of the
wrapped operation fails with a transient-capacity (quota) error, a retrier
invocation `retryWithBackoff(fn, R, D)` attempts the operation exactly `R + 1`
times, the waits performed before the 1st, 2nd, ... retries are exactly
`D, 2·D, 4·D, ...` (the wait before the k-th retry is `D * 2 ^ (k - 1)`), and
the error of the last attempt (attempt index `R`) is propagated to the
caller. -/
theorem C2_backoff_monotonicity {α : Type} (fn : Nat → Except JsError α)
    (errs : Nat → JsError) (R D : Nat)
    (hfail : ∀ j, fn j = .error (errs j))
    (htrans : ∀ j, isQuotaError (errs j) = true) :
    attemptCount fn R D = R + 1 ∧
    (retryWithBackoff fn 0 R D).2 = (List.range R).map (fun i => D * 2 ^ i) ∧
    (retryWithBackoff fn 0 R D).1 = .error (errs R) := by
  have hfn : fn = fun j => .error (errs j) := funext hfail
  have h := retryWithBackoff_all_transient (α := α) errs htrans R 0 D
  rw [hfn, attemptCount, h]
  refine ⟨by simp, rfl, by simp⟩

/-- Witness for C2 at a concrete input: a backend that always reports HTTP 429,
two configured retries, initial delay 7; the operation is attempted 3 times
with waits 7 then 14, and the final error is propagated. -/
theorem C2_backoff_monotonicity_witness :
    attemptCount (fun _ => (Except.error ⟨some 429, none, none⟩ :
        Except JsError Unit)) 2 7 = 3 ∧
    (retryWithBackoff (fun _ => (Except.error ⟨some 429, none, none⟩ :
        Except JsError Unit)) 0 2 7).2 = [7, 14] ∧
    (retryWithBackoff (fun _ => (Except.error ⟨some 429, none, none⟩ :
        Except JsError Unit)) 0 2 7).1 = .error ⟨some 429, none, none⟩ := by
  have h := C2_backoff_monotonicity
    (fun _ => (Except.error ⟨some 429, none, none⟩ : Except JsError Unit))
    (fun _ => ⟨some 429, none, none⟩) 2 7 (fun _ => rfl) (fun _ => rfl)
  exact ⟨h.1, by rw [h.2.1]; rfl, h.2.2⟩

/-- C3.  Transient-error classification and propagation: when the first
attempt fails with error `e`, the retrier performs at least one retry if and
only if `e` reports HTTP status 429, error code 429, or its message contains
the case-sensitive substring "429", "quota" or "RESOURCE_EXHAUSTED"
(`TransientCapacity e`), and retries remain (`0 < r`); on any other error, or
when retries are exhausted, the failure is propagated immediately with no
wait and no further attempt, and the propagated failure is exactly the
original cause `e`. -/
theorem C3_transient_classification {α : Type} (fn : Nat → Except JsError α)
    (e : JsError) (r d : Nat) (h0 : fn 0 = .error e) :
    (0 < (retryWithBackoff fn 0 r d).2.length ↔ TransientCapacity e ∧ 0 < r) ∧
    (¬ (TransientCapacity e ∧ 0 < r) →
      retryWithBackoff fn 0 r d = (.error e, [])) := by
  cases r with
  | zero =>
    rw [retryWithBackoff_zero fn 0 d e h0]
    simp
  | succ n =>
    rw [retryWithBackoff_succ_error fn 0 n d e h0]
    by_cases hq : isQuotaError e = true
    · have ht : TransientCapacity e := (isQuotaError_iff e).1 hq
      rw [if_pos hq]
      have hgood : TransientCapacity e ∧ 0 < n + 1 := ⟨ht, Nat.succ_pos n⟩
      exact ⟨⟨fun _ => hgood, fun _ => by simp⟩, fun hc => absurd hgood hc⟩
    · have ht : ¬ TransientCapacity e := fun hc => hq ((isQuotaError_iff e).2 hc)
      rw [if_neg hq]
      simpa using fun hc => absurd hc ht

/-- Witness for C3 at a concrete input: a non-transient error ("boom", no
status, no code) with 3 retries remaining is propagated immediately, with no
retry performed. -/
theorem C3_transient_classification_witness :
    (0 < (retryWithBackoff (fun _ => (Except.error ⟨none, none, some "boom"⟩ :
        Except JsError Unit)) 0 3 2000).2.length ↔
      TransientCapacity ⟨none, none, some "boom"⟩ ∧ 0 < 3) ∧
    retryWithBackoff (fun _ => (Except.error ⟨none, none, some "boom"⟩ :
        Except JsError Unit)) 0 3 2000 =
      (.error ⟨none, none, some "boom"⟩, []) := by
  have h := C3_transient_classification
    (fun _ => (Except.error ⟨none, none, some "boom"⟩ : Except JsError Unit))
    ⟨none, none, some "boom"⟩ 3 2000 rfl
  refine ⟨h.1, h.2 ?_⟩
  rintro ⟨hc, -⟩
  have hb := (isQuotaError_iff ⟨none, none, some "boom"⟩).2 hc
  have hfalse : isQuotaError ⟨none, none, some "boom"⟩ = false := by decide
  rw [hfalse] at hb
  cases hb

/-! ### The page data model (`src/types.ts`) -/

/-- Embedding of the `StoryPage` record.  Optional JS fields become `Option`;
the three transient flags are optional booleans in the source whose `undefined`
is falsy, so they are modelled as `Bool` (absent = `false`).  The audio
payload is modelled as its byte content (`List Nat`, one entry per byte). -/
structure StoryPage where
  pageNumber : Nat
  text : String
  voiceoverText : Option String
  imagePrompt : String
  imageData : Option String
  audioData : Option (List Nat)
  isGeneratingImage : Bool
  isGeneratingAudio : Bool
  hasError : Bool
deriving DecidableEq, Repr

/-- JavaScript `a || b` on a string and a fallback: `undefined` and the empty
string are falsy. -/
def jsOrString : Option String → String → String
  | some v, t => if v = "" then t else v
  | none, t => t

/-- The narration script of a page: `page.voiceoverText || page.text`, as
computed at every use site of the source (`textToSpeak`, `textToPrint`,
`handleSaveTextEdit`, export word count). -/
def pageNarration (p : StoryPage) : String :=
  jsOrString p.voiceoverText p.text

/-! ### `triggerGeneration` (`BookViewer`, image and audio axes) -/

/-- Result of one `triggerGeneration(index)` call on a page: the updated page
and how many backend requests were submitted on each axis. -/
structure TriggerResult where
  page : StoryPage
  imageRequests : Nat
  audioRequests : Nat
deriving DecidableEq, Repr

/-- Embedding of `triggerGeneration` from `BookViewer`:

* image axis: `if (!page.imageData && !page.isGeneratingImage)` then set
  `isGeneratingImage = true, hasError = false` and submit one
  `generateImageForPage` request; otherwise do nothing;
* audio axis: `if (!page.audioData && !page.isGeneratingAudio)` then set
  `isGeneratingAudio = true` and submit one `generatePageAudio` request for
  `voiceoverText || text`; otherwise do nothing.

Both guards read the same page snapshot, as in the source; the two updates
touch disjoint fields, so applying them in sequence is exact. -/
def triggerGeneration (p : StoryPage) : TriggerResult :=
  let imgStep :=
    if p.imageData = none ∧ p.isGeneratingImage = false then
      ({ p with isGeneratingImage := true, hasError := false }, 1)
    else (p, 0)
  let audStep :=
    if p.audioData = none ∧ p.isGeneratingAudio = false then
      ({ imgStep.1 with isGeneratingAudio := true }, 1)
    else (imgStep.1, 0)
  ⟨audStep.1, imgStep.2, audStep.2⟩

/-- C4.  Idempotent trigger / dedup.  For a page whose image and audio axes
are both empty (no payload, not in progress), calling `triggerGeneration`
and then calling it again on the resulting state (i.e. twice in immediate
succession, before any triggered request completes) submits exactly one
backend request per axis in total, and the second call changes nothing.
Moreover `triggerGeneration` is a no-op for an axis that is already in
progress or already has its payload: it submits no request and leaves that
axis's fields untouched. -/
theorem C4_trigger_idempotent (p : StoryPage)
    (himg : p.imageData = none ∧ p.isGeneratingImage = false)
    (haud : p.audioData = none ∧ p.isGeneratingAudio = false) :
    ((triggerGeneration p).imageRequests = 1 ∧
     (triggerGeneration p).audioRequests = 1 ∧
     (triggerGeneration (triggerGeneration p).page).imageRequests = 0 ∧
     (triggerGeneration (triggerGeneration p).page).audioRequests = 0 ∧
     (triggerGeneration (triggerGeneration p).page).page =
       (triggerGeneration p).page) ∧
    (∀ q : StoryPage, q.isGeneratingImage = true ∨ q.imageData ≠ none →
      (triggerGeneration q).imageRequests = 0 ∧
      (triggerGeneration q).page.imageData = q.imageData ∧
      (triggerGeneration q).page.isGeneratingImage = q.isGeneratingImage ∧
      (triggerGeneration q).page.hasError = q.hasError) ∧
    (∀ q : StoryPage, q.isGeneratingAudio = true ∨ q.audioData ≠ none →
      (triggerGeneration q).audioRequests = 0 ∧
      (triggerGeneration q).page.audioData = q.audioData ∧
      (triggerGeneration q).page.isGeneratingAudio = q.isGeneratingAudio) := by
  refine ⟨?_, ?_, ?_⟩
  · have h1 : triggerGeneration p =
        ⟨{ p with isGeneratingImage := true, hasError := false, isGeneratingAudio := true }, 1, 1⟩ := by
      simp [triggerGeneration, himg.1, himg.2, haud.1, haud.2]
    rw [h1]
    have h2 : triggerGeneration
        { p with isGeneratingImage := true, hasError := false, isGeneratingAudio := true } =
        ⟨{ p with isGeneratingImage := true, hasError := false, isGeneratingAudio := true }, 0, 0⟩ := by
      simp [triggerGeneration]
    rw [h2]
    exact ⟨rfl, rfl, rfl, rfl, rfl⟩
  · intro q hq
    have hno : ¬ (q.imageData = none ∧ q.isGeneratingImage = false) := by
      rcases hq with h | h
      · intro hc
        rw [h] at hc
        exact absurd hc.2 (by simp)
      · exact fun hc => h hc.1
    by_cases ha : q.audioData = none ∧ q.isGeneratingAudio = false
    · simp [triggerGeneration, hno, ha.1, ha.2]
    · simp [triggerGeneration, hno, ha]
  · intro q hq
    have hno : ¬ (q.audioData = none ∧ q.isGeneratingAudio = false) := by
      rcases hq with h | h
      · intro hc
        rw [h] at hc
        exact absurd hc.2 (by simp)
      · exact fun hc => h hc.1
    by_cases hi : q.imageData = none ∧ q.isGeneratingImage = false
    · simp [triggerGeneration, hno, hi.1, hi.2]
    · simp [triggerGeneration, hno, hi]

/-- Witness for C4 at a concrete fresh page (both axes empty): the first
trigger submits one request per axis, the immediate second trigger submits
none and changes nothing. -/
theorem C4_trigger_idempotent_witness :
    (triggerGeneration ⟨1, "Once", none, "a cloud", none, none, false, false, false⟩).imageRequests = 1 ∧
    (triggerGeneration ⟨1, "Once", none, "a cloud", none, none, false, false, false⟩).audioRequests = 1 ∧
    (triggerGeneration (triggerGeneration ⟨1, "Once", none, "a cloud", none, none, false, false, false⟩).page).imageRequests = 0 ∧
    (triggerGeneration (triggerGeneration ⟨1, "Once", none, "a cloud", none, none, false, false, false⟩).page).audioRequests = 0 ∧
    (triggerGeneration (triggerGeneration ⟨1, "Once", none, "a cloud", none, none, false, false, false⟩).page).page =
      (triggerGeneration ⟨1, "Once", none, "a cloud", none, none, false, false, false⟩).page := by
  have h := C4_trigger_idempotent
    ⟨1, "Once", none, "a cloud", none, none, false, false, false⟩
    ⟨rfl, rfl⟩ ⟨rfl, rfl⟩
  exact ⟨h.1.1, h.1.2.1, h.1.2.2.1, h.1.2.2.2.1, h.1.2.2.2.2⟩

/-! ### `handleSaveTextEdit` (`BookViewer`) -/

/-- Embedding of `handleSaveTextEdit`: the updates object always carries the
new display text and voiceover script; when the edited voiceover differs from
`page.voiceoverText || page.text` it additionally clears `audioData` and
resets `isGeneratingAudio`:

```
const updates = { text: editedText, voiceoverText: editedVoiceover };
if (editedVoiceover !== (page.voiceoverText || page.text)) {
  updates.audioData = undefined;
  updates.isGeneratingAudio = false;
}
updatePage(currentPageIndex, updates);
``` -/
def handleSaveTextEdit (p : StoryPage) (editedText editedVoiceover : String) :
    StoryPage :=
  if editedVoiceover ≠ pageNarration p then
    { p with text := editedText, voiceoverText := some editedVoiceover, audioData := none, isGeneratingAudio := false }
  else
    { p with text := editedText, voiceoverText := some editedVoiceover }

/-- C5.  Audio invalidation on narration edit: saving a text edit whose
voiceover script differs from the page's current narration script
(`voiceoverText` with the display text as fallback) clears any existing
audio payload and its in-progress flag; saving an edit whose voiceover
script is the identical string leaves the audio payload and in-progress
flag untouched. -/
theorem C5_audio_invalidation (p : StoryPage) (t v : String) :
    (v ≠ pageNarration p →
      (handleSaveTextEdit p t v).audioData = none ∧
      (handleSaveTextEdit p t v).isGeneratingAudio = false) ∧
    (v = pageNarration p →
      (handleSaveTextEdit p t v).audioData = p.audioData ∧
      (handleSaveTextEdit p t v).isGeneratingAudio = p.isGeneratingAudio) := by
  constructor
  · intro h
    rw [handleSaveTextEdit, if_pos h]
    exact ⟨rfl, rfl⟩
  · intro h
    rw [handleSaveTextEdit, if_neg (by simpa using h)]
    exact ⟨rfl, rfl⟩

/-- Witness for C5 at concrete inputs: editing the narration of a page whose
narration script is "hello there" (with an audio payload present) to a
different string clears the audio; re-saving the identical string leaves it
untouched. -/
theorem C5_audio_invalidation_witness :
    ((handleSaveTextEdit ⟨1, "hi", some "hello there", "pr", none, some [1, 2], false, false, false⟩ "hi" "bye now").audioData = none ∧
     (handleSaveTextEdit ⟨1, "hi", some "hello there", "pr", none, some [1, 2], false, false, false⟩ "hi" "bye now").isGeneratingAudio = false) ∧
    ((handleSaveTextEdit ⟨1, "hi", some "hello there", "pr", none, some [1, 2], false, false, false⟩ "hi" "hello there").audioData = some [1, 2] ∧
     (handleSaveTextEdit ⟨1, "hi", some "hello there", "pr", none, some [1, 2], false, false, false⟩ "hi" "hello there").isGeneratingAudio = false) := by
  have h1 := (C5_audio_invalidation
    ⟨1, "hi", some "hello there", "pr", none, some [1, 2], false, false, false⟩
    "hi" "bye now").1 (by decide)
  have h2 := (C5_audio_invalidation
    ⟨1, "hi", some "hello there", "pr", none, some [1, 2], false, false, false⟩
    "hi" "hello there").2 (by decide)
  exact ⟨h1, h2.1, h2.2⟩

/-! ### PCM decoding (`decode` / `decodeAudioData` in `BookViewer`) -/

/-- One element of a JavaScript `Int16Array` view, built from two bytes in
little-endian order with two's-complement sign. -/
def int16FromBytes (lo hi : Nat) : Int :=
  let v := lo % 256 + 256 * (hi % 256)
  if v < 32768 then (v : Int) else (v : Int) - 65536

/-- The `Int16Array` view of a byte list, consuming bytes two at a time
(a trailing odd byte cannot occur on the even-length lists the view accepts;
the view itself is only taken after the length check in `decodeAudioData`). -/
def int16View : List Nat → List Int
  | lo :: hi :: rest => int16FromBytes lo hi :: int16View rest
  | _ => []

/-- A decoded audio buffer, as produced by `ctx.createBuffer` and filled by
`decodeAudioData`: channel `c` holds the normalized samples
`dataInt16[i * numChannels + c] / 32768`. -/
structure JsAudioBuffer where
  numChannels : Nat
  frameCount : Nat
  sampleRate : Nat
  channels : List (List ℚ)
deriving DecidableEq, Repr

/-- Embedding of `decodeAudioData(data, ctx, sampleRate, numChannels)` from
`BookViewer`:

```
const dataInt16 = new Int16Array(data.buffer);
const frameCount = dataInt16.length / numChannels;
const buffer = ctx.createBuffer(numChannels, frameCount, sampleRate);
for (channel...) for (i...) channelData[i] = dataInt16[i*numChannels+channel]/32768;
```

Constructing `Int16Array` over a buffer of odd byte length throws a
`RangeError` in JavaScript; that failure is modelled as `none`.  Both call
sites pass `numChannels = 1` and a sample rate of 24000. -/
def decodeAudioData (data : List Nat) (sampleRate numChannels : Nat) :
    Option JsAudioBuffer :=
  if data.length % 2 = 0 then
    some ⟨numChannels, (int16View data).length / numChannels, sampleRate,
      (List.range numChannels).map (fun c =>
        (List.range ((int16View data).length / numChannels)).map (fun i =>
          ((int16View data).getD (i * numChannels + c) 0 : ℚ) / 32768))⟩
  else
    none

/-- `buffer.duration` of a Web Audio buffer: frames divided by sample rate,
in seconds. -/
def bufferDuration (b : JsAudioBuffer) : ℚ :=
  (b.frameCount : ℚ) / (b.sampleRate : ℚ)

theorem int16View_length :
    ∀ l : List Nat, (int16View l).length = l.length / 2
  | [] => rfl
  | [_] => by simp [int16View]
  | _ :: _ :: rest => by
    show (int16View rest).length + 1 = _
    rw [int16View_length rest]
    show _ = (rest.length + 1 + 1) / 2
    omega

theorem int16View_getD :
    ∀ (l : List Nat) (i : Nat), 2 * i + 1 < l.length →
      (int16View l).getD i 0 =
        int16FromBytes (l.getD (2 * i) 0) (l.getD (2 * i + 1) 0)
  | [], _, h => by simp at h
  | [_], i, h => by
    simp only [List.length_singleton] at h
    omega
  | _ :: _ :: _, 0, _ => rfl
  | lo :: hi :: rest, i + 1, h => by
    show (int16View rest).getD i 0 = _
    rw [int16View_getD rest i (by
      simp only [List.length_cons] at h
      omega)]
    have e1 : 2 * (i + 1) = 2 * i + 1 + 1 := by ring
    rw [e1, List.getD_cons_succ, List.getD_cons_succ,
      List.getD_cons_succ, List.getD_cons_succ]

/-- C10.  Decoder partiality on odd-length payloads: `decodeAudioData` (at
its call-site channel count 1) succeeds exactly on byte arrays of even
length, producing a buffer of `length / 2` frames whose `i`-th sample is the
`i`-th little-endian signed 16-bit value divided by 32768; on a byte array of
odd length the `Int16Array` construction throws (modelled as `none`), so a
malformed payload surfaces as an error instead of playing truncated audio. -/
theorem C10_decode_partiality (data : List Nat) (rate : Nat) :
    (data.length % 2 = 0 →
      ∃ b, decodeAudioData data rate 1 = some b ∧
        b.frameCount = data.length / 2 ∧
        b.sampleRate = rate ∧
        b.numChannels = 1 ∧
        b.channels.length = 1 ∧
        ∀ i, i < data.length / 2 →
          (b.channels.getD 0 []).getD i 0 =
            (int16FromBytes (data.getD (2 * i) 0) (data.getD (2 * i + 1) 0) : ℚ) / 32768) ∧
    (data.length % 2 = 1 → decodeAudioData data rate 1 = none) := by
  constructor
  · intro heven
    refine ⟨_, by rw [decodeAudioData, if_pos heven], ?_, rfl, rfl, by simp, ?_⟩
    · simp [int16View_length]
    · intro i hi
      have hlen : (int16View data).length / 1 = data.length / 2 := by
        simp [int16View_length]
      have hgd : ((List.range 1).map (fun c =>
          (List.range ((int16View data).length / 1)).map (fun j =>
            ((int16View data).getD (j * 1 + c) 0 : ℚ) / 32768))).getD 0 [] =
          (List.range ((int16View data).length / 1)).map (fun j =>
            ((int16View data).getD (j * 1 + 0) 0 : ℚ) / 32768) := by
        rfl
      rw [hgd]
      have hmem : ((List.range ((int16View data).length / 1)).map (fun j =>
          ((int16View data).getD (j * 1 + 0) 0 : ℚ) / 32768)).getD i 0 =
          ((int16View data).getD (i * 1 + 0) 0 : ℚ) / 32768 := by
        rw [List.getD_eq_getElem?_getD, List.getElem?_map,
          List.getElem?_range (by rw [hlen]; exact hi)]
        rfl
      rw [hmem]
      have : i * 1 + 0 = i := by ring
      rw [this, int16View_getD data i (by omega)]
  · intro hodd
    rw [decodeAudioData, if_neg (by omega)]

/-- Witness for C10 at concrete inputs: the two-byte payload `[52, 18]`
decodes to one frame with sample `0x1234 / 32768`, and the one-byte payload
`[7]` is rejected. -/
theorem C10_decode_partiality_witness :
    (∃ b, decodeAudioData [52, 18] 24000 1 = some b ∧
      b.frameCount = [52, 18].length / 2 ∧
      b.sampleRate = 24000 ∧
      b.numChannels = 1 ∧
      b.channels.length = 1 ∧
      ∀ i, i < [52, 18].length / 2 →
        (b.channels.getD 0 []).getD i 0 =
          (int16FromBytes ([52, 18].getD (2 * i) 0) ([52, 18].getD (2 * i + 1) 0) : ℚ) / 32768) ∧
    decodeAudioData [7] 24000 1 = none := by
  exact ⟨(C10_decode_partiality [52, 18] 24000).1 rfl,
    (C10_decode_partiality [7] 24000).2 rfl⟩

/-! ### Per-page render duration in `handleExportVideo` (`BookViewer`) -/

/-- JavaScript `s.split(' ')` on character lists: the string is cut at every
single space character; leading, trailing and doubled spaces yield empty
fragments, and the empty string yields one empty fragment, exactly as in JS. -/
def splitCharsOnSpace : List Char → List (List Char)
  | [] => [[]]
  | c :: cs =>
    if c = ' ' then [] :: splitCharsOnSpace cs
    else
      match splitCharsOnSpace cs with
      | r :: rs => (c :: r) :: rs
      | [] => [[c]]

/-- The fragments of JavaScript `s.split(' ')` as strings. -/
def jsSplitOnSpace (s : String) : List String :=
  (splitCharsOnSpace s.toList).map (fun l => String.mk l)

/-- Embedding of the per-page duration computation of the video compositor:

```
if (page.audioData) {
  audioBuffer = await decodeAudioData(decode(page.audioData), exportAudioCtx, 24000, 1);
  duration = audioBuffer.duration;
} else {
  const wordCount = (page.voiceoverText || page.text).split(' ').length;
  duration = (wordCount * 0.3) + 2;
}
```

The audio payload field of the model already holds the decoded bytes (the
output of `decode`).  A decoding failure (odd byte length) throws out of the
whole export; that abort is `none`. -/
def exportPageDuration (p : StoryPage) : Option ℚ :=
  match p.audioData with
  | some bytes =>
    match decodeAudioData bytes 24000 1 with
    | some b => some (bufferDuration b)
    | none => none
  | none =>
    some (((jsSplitOnSpace (pageNarration p)).length : ℚ) * (3 / 10) + 2)

/-- C6.  Video export duration derivation: if a page's audio payload decodes
to a buffer, the compositor allocates exactly that buffer's duration in
seconds (`frames / 24000`, with `frames = bytes / 2`); if no audio exists and
the narration text splits on single spaces into `W` words, it allocates
exactly `W * 0.3 + 2` seconds. -/
theorem C6_duration_derivation (p : StoryPage) :
    (∀ bytes b, p.audioData = some bytes →
      decodeAudioData bytes 24000 1 = some b →
      exportPageDuration p = some (bufferDuration b) ∧
      bufferDuration b = ((bytes.length / 2 : Nat) : ℚ) / (24000 : ℚ)) ∧
    (p.audioData = none →
      exportPageDuration p =
        some (((jsSplitOnSpace (pageNarration p)).length : ℚ) * (3 / 10) + 2)) := by
  constructor
  · intro bytes b hb hdec
    constructor
    · simp only [exportPageDuration, hb, hdec]
    · have heven : bytes.length % 2 = 0 := by
        by_contra hne
        have hodd : bytes.length % 2 = 1 := by omega
        rw [(C10_decode_partiality bytes 24000).2 hodd] at hdec
        cases hdec
      obtain ⟨b2, hb2, hfc, hsr, -, -, -⟩ :=
        (C10_decode_partiality bytes 24000).1 heven
      rw [hdec] at hb2
      obtain rfl := (Option.some.injEq .. ▸ hb2)
      rw [bufferDuration, hfc, hsr]
      norm_num
  · intro hnone
    rw [exportPageDuration, hnone]

/-- Witness for C6 at concrete inputs: a page with a four-byte audio payload
renders for `2 / 24000` seconds; a page with no audio and narration
"hello little cloud" (3 words) renders for `3 * 0.3 + 2` seconds. -/
theorem C6_duration_derivation_witness :
    exportPageDuration ⟨1, "hi", none, "pr", none, some [0, 0, 0, 0], false, false, false⟩ =
      some ((2 : ℚ) / 24000) ∧
    exportPageDuration ⟨2, "hello little cloud", none, "pr", none, none, false, false, false⟩ =
      some ((3 : ℚ) * (3 / 10) + 2) := by
  constructor
  · obtain ⟨b, hb, -, -, -, -, -⟩ :=
      (C10_decode_partiality [0, 0, 0, 0] 24000).1 rfl
    have h := (C6_duration_derivation
      ⟨1, "hi", none, "pr", none, some [0, 0, 0, 0], false, false, false⟩).1
      [0, 0, 0, 0] b rfl hb
    rw [h.1, h.2]
    norm_num
  · have h := (C6_duration_derivation
      ⟨2, "hello little cloud", none, "pr", none, none, false, false, false⟩).2 rfl
    rw [h]
    have h3 : (jsSplitOnSpace (pageNarration
        ⟨2, "hello little cloud", none, "pr", none, none, false, false, false⟩)).length = 3 := by
      decide
    rw [h3]
    norm_num

/-! ### Narration playback and auto-advance (`playPageAudio` / `stopAudio`) -/

/-- The flags and page data captured by the closure of `playPageAudio` at the
render in which playback was started: auto-play mode, the two editing-mode
flags, and the page count and current index visible to that closure. -/
structure PlayEnv where
  isAutoPlay : Bool
  isEditingText : Bool
  isEditing : Bool
  pageCount : Nat
deriving DecidableEq, Repr

/-- The body of the `onended` handler installed by `playPageAudio`, over the
environment captured at play time:

```
source.onended = () => {
  setIsPlayingAudio(false);
  if (isAutoPlay && !isEditingText && !isEditing) {
    setTimeout(() => { setCurrentPageIndex(prev =>
      prev < pages.length - 1 ? prev + 1 : prev); }, 800);
  }
};
```

The result is the page-index updater scheduled (for 800ms later), if any. -/
def onendedUpdater (env : PlayEnv) : Option (Nat → Nat) :=
  if env.isAutoPlay && !env.isEditingText && !env.isEditing then
    some (fun prev => if prev < env.pageCount - 1 then prev + 1 else prev)
  else
    none

/-- The playback engine state: the active `AudioBufferSourceNode` (with the
environment its `onended` closure captured) and the `isPlayingAudio` flag. -/
structure PlaybackEngine where
  source : Option PlayEnv
  isPlayingAudio : Bool

/-- Embedding of `stopAudio` (a *manual* stop):

```
if (audioSourceRef.current) {
  try { audioSourceRef.current.stop(); } catch (e) { }
  audioSourceRef.current = null;
}
setIsPlayingAudio(false);
```

Per the Web Audio contract, an `AudioScheduledSourceNode` fires its `ended`
event when `stop()` is called, not only on natural completion, and
`stopAudio` never detaches the handler, so a manual stop runs the same
`onended` body with the environment captured at play time.  The second
component is the auto-advance updater that handler schedules, if any. -/
def stopAudio (eng : PlaybackEngine) : PlaybackEngine × Option (Nat → Nat) :=
  match eng.source with
  | some env => (⟨none, false⟩, onendedUpdater env)
  | none => (⟨none, false⟩, none)

/-- C7.  Auto-advance semantics: the claim requires that a *manual* stop
suppresses auto-advance.  In the code, `source.stop()` raises the `ended`
event and the still-attached handler checks only the flags captured at play
time, so a manual stop during auto-play (here: two pages, reading page 0,
no editor open) still schedules the 800ms advance to page 1 — and in general
a manual stop does not always suppress the advance.  This contradicts the
claim; the code, not the claim, is at fault (the spec's "not via manual
stop" is unimplementable through this handler, which cannot distinguish the
two completions). -/
theorem C7_manual_stop_schedules_advance :
    ((stopAudio ⟨some ⟨true, false, false, 2⟩, true⟩).2.map (fun f => f 0)) =
      some 1 ∧
    ¬ (∀ eng : PlaybackEngine, (stopAudio eng).2 = none) := by
  constructor
  · rfl
  · intro h
    have hc := h ⟨some ⟨true, false, false, 2⟩, true⟩
    rw [stopAudio] at hc
    simp [onendedUpdater] at hc

/-! ### The story record and `generatePDF` (`src/services/pdfService.ts`) -/

/-- Embedding of the `Story` record from `src/types.ts`. -/
structure Story where
  id : String
  createdAt : Nat
  title : String
  lesson : String
  pages : List StoryPage
  theme : Option String
  language : Option String
deriving DecidableEq, Repr

/-- The layout produced for one PDF page.  `titlePage` is the fixed cover;
`cinematic` is the branch taken when the story page has an image payload
(black background, subtitle band rasterized from the narration text, page
number stamp) with `imageEmbedded = false` when `addImage` rejected the
payload and the catch block skipped it; `plainText` is the parchment
fallback taken when the story page has no image payload at all. -/
inductive PdfPage where
  | titlePage (title : String) (theme : Option String) (lesson : String)
  | cinematic (imageEmbedded : Bool) (subtitle : String) (pageNumber : Nat)
  | plainText (text : String)
deriving DecidableEq, Repr

/-- Embedding of `generatePDF(story)`: a title page, then one page per story
page; on each page with an image payload, `doc.addImage` is attempted inside
its own try/catch (`validImage` says whether jsPDF accepts the payload;
a rejection is logged and skipped), then the subtitle band for
`voiceoverText || text` and the page number are added; a page without an
image payload gets the plain-text parchment layout.  The whole body sits in
an outer try/catch that returns `null` (`none`) instead of ever emitting a
partial document. -/
def generatePDF (validImage : String → Bool) (s : Story) :
    Option (List PdfPage) :=
  some (PdfPage.titlePage s.title s.theme s.lesson ::
    s.pages.enum.map (fun ip =>
      match ip.2.imageData with
      | some img => PdfPage.cinematic (validImage img) (pageNarration ip.2) (ip.1 + 1)
      | none => PdfPage.plainText ip.2.text))

/-- C8.  PDF export continuity: for every story, the generator produces a
complete document of `pages + 1` PDF pages (title page first); a story page
whose image payload fails to embed is skipped silently *for that page only* —
it is rendered with no image but still carries its subtitle text and page
number — and every other page is unaffected; and whenever a document is
emitted at all it is this complete one (a total failure yields `none`, never
a partial document). -/
theorem C8_pdf_export_continuity (validImage : String → Bool) (s : Story) :
    ∃ doc, generatePDF validImage s = some doc ∧
      doc.length = s.pages.length + 1 ∧
      doc.head? = some (PdfPage.titlePage s.title s.theme s.lesson) ∧
      (∀ i p, s.pages[i]? = some p →
        doc[i + 1]? = some (match p.imageData with
          | some img => PdfPage.cinematic (validImage img) (pageNarration p) (i + 1)
          | none => PdfPage.plainText p.text)) ∧
      (∀ doc', generatePDF validImage s = some doc' →
        doc'.length = s.pages.length + 1) := by
  refine ⟨_, rfl, ?_, rfl, ?_, ?_⟩
  · simp [List.enum_length]
  · intro i p hp
    simp only [List.getElem?_cons_succ, List.getElem?_map, List.getElem?_enum, hp]
    rfl
  · intro doc' hdoc'
    obtain rfl := (Option.some.injEq .. ▸ hdoc'.symm)
    simp [List.enum_length]

/-- The 5-page scenario story of the claim: page 3 (index 2) carries a
corrupt image payload, the others valid ones. -/
def c8Story : Story :=
  ⟨"s1", 0, "T", "L",
    [⟨1, "t1", none, "p", some "A", none, false, false, false⟩,
     ⟨2, "t2", none, "p", some "B", none, false, false, false⟩,
     ⟨3, "t3", none, "p", some "CORRUPT", none, false, false, false⟩,
     ⟨4, "t4", none, "p", some "D", none, false, false, false⟩,
     ⟨5, "t5", none, "p", some "E", none, false, false, false⟩],
    some "Watercolor", some "English"⟩

/-- Image-payload acceptance for the scenario: jsPDF rejects exactly the
corrupt payload. -/
def c8Valid : String → Bool := fun img => img != "CORRUPT"

/-- Witness for C8 at the claimed scenario: the 5-page story with a corrupt
page-3 payload still yields a 6-page document; page 3 is rendered with no
embedded image but keeps its subtitle text and page number; all other pages
are unaffected. -/
theorem C8_pdf_export_continuity_witness :
    ∃ doc, generatePDF c8Valid c8Story = some doc ∧
      doc.length = 6 ∧
      doc[3]? = some (PdfPage.cinematic false "t3" 3) ∧
      doc[1]? = some (PdfPage.cinematic true "t1" 1) ∧
      doc[2]? = some (PdfPage.cinematic true "t2" 2) ∧
      doc[4]? = some (PdfPage.cinematic true "t4" 4) ∧
      doc[5]? = some (PdfPage.cinematic true "t5" 5) := by
  obtain ⟨doc, hdoc, hlen, -, hidx, -⟩ := C8_pdf_export_continuity c8Valid c8Story
  exact ⟨doc, hdoc, by rw [hlen]; rfl, hidx 2 _ rfl, hidx 0 _ rfl, hidx 1 _ rfl,
    hidx 3 _ rfl, hidx 4 _ rfl⟩

/-! ### Image-axis state machine of the page controller (C9) -/

/-- The image axis of one page — payload, `isGeneratingImage`, `hasError` —
together with the number of outstanding backend promises of each kind
(generation and image-edit).  The in-flight counters are not page fields;
they count `.then`/`.catch` callbacks that have not yet run. -/
structure ImageAxis where
  img : Option String
  inprog : Bool
  failed : Bool
  genInFlight : Nat
  editInFlight : Nat
deriving DecidableEq, Repr

/-- The controller transitions that touch a page's image axis, taken from the
handlers in `BookViewer`.  (`handleSaveTextEdit` never touches these fields,
so text edits are irrelevant to this axis and are omitted.) -/
inductive ImgEvent where
  | trig
  | genOk (img : String)
  | genFail
  | regen
  | editStart
  | editOk (img : String)
  | editFail
deriving DecidableEq, Repr

/-- Is the event an image-edit success callback? -/
def isEditOk : ImgEvent → Bool
  | .editOk _ => true
  | _ => false

/-- One image-axis transition.  `none` marks an event whose enabling
condition cannot hold there:

* `trig` — the image branch of `triggerGeneration`: when
  `!page.imageData && !page.isGeneratingImage` it sets
  `{isGeneratingImage: true, hasError: false}` and submits a request,
  otherwise it is a no-op;
* `genOk`/`genFail` — the `.then`/`.catch` of a pending `generateImageForPage`
  promise: `{imageData, isGeneratingImage: false, hasError: false}` resp.
  `{isGeneratingImage: false, hasError: true}`;
* `regen` — `handleRegenerateCurrent`'s clear
  `{imageData: undefined, isGeneratingImage: false, hasError: false}`;
  its deferred re-trigger arrives as a later `trig`.  The button exists only
  when `currentPage.imageData` is present;
* `editStart` — `handleEditSubmit`, which returns early without an image
  payload and whose submit button is disabled while an edit is processing;
* `editOk`/`editFail` — the edit promise settling: on success
  `{imageData: newImage}` (nothing else), on failure no page mutation. -/
def imgStep (s : ImageAxis) : ImgEvent → Option ImageAxis
  | .trig =>
    if s.img = none ∧ s.inprog = false then
      some { s with inprog := true, failed := false, genInFlight := s.genInFlight + 1 }
    else
      some s
  | .genOk img =>
    if s.genInFlight = 0 then none
    else some { s with img := some img, inprog := false, failed := false, genInFlight := s.genInFlight - 1 }
  | .genFail =>
    if s.genInFlight = 0 then none
    else some { s with inprog := false, failed := true, genInFlight := s.genInFlight - 1 }
  | .regen =>
    if s.img = none then none
    else some { s with img := none, inprog := false, failed := false }
  | .editStart =>
    if s.img = none ∨ s.editInFlight ≠ 0 then none
    else some { s with editInFlight := s.editInFlight + 1 }
  | .editOk img =>
    if s.editInFlight = 0 then none
    else some { s with img := some img, editInFlight := s.editInFlight - 1 }
  | .editFail =>
    if s.editInFlight = 0 then none
    else some { s with editInFlight := s.editInFlight - 1 }

/-- Run a sequence of image-axis events. -/
def imgRun (s : ImageAxis) (es : List ImgEvent) : Option ImageAxis :=
  es.foldlM imgStep s

/-- A freshly generated story page: no payload, no flags, nothing in
flight. -/
def initImageAxis : ImageAxis := ⟨none, false, false, 0, 0⟩

/-- The claimed per-page image-axis invariant: image-in-progress and
image-present are never both true, and a failed page is neither in progress
nor carries a payload. -/
def ImgInv (s : ImageAxis) : Prop :=
  (s.inprog = true → s.img = none) ∧
  (s.failed = true → s.inprog = false ∧ s.img = none)

/-- The inductive strengthening: at most one generation request is ever in
flight, the in-progress flag tracks it exactly, and a present payload means
nothing is in flight. -/
def ImgInvStrong (s : ImageAxis) : Prop :=
  s.genInFlight ≤ 1 ∧
  (s.inprog = true ↔ s.genInFlight = 1) ∧
  (∀ i, s.img = some i → s.genInFlight = 0) ∧
  ImgInv s

theorem imgStep_preserves (s s' : ImageAxis) (e : ImgEvent)
    (hno : isEditOk e = false)
    (hs : ImgInvStrong s) (hstep : imgStep s e = some s') :
    ImgInvStrong s' := by
  obtain ⟨hg1, hg2, hg3, hinv1, hinv2⟩ := hs
  cases e with
  | trig =>
    rw [imgStep] at hstep
    by_cases hc : s.img = none ∧ s.inprog = false
    · rw [if_pos hc] at hstep
      have hgif : s.genInFlight = 0 := by
        rcases Nat.lt_or_ge s.genInFlight 1 with h | h
        · omega
        · exact absurd (hg2.2 (by omega)) (by simp [hc.2])
      obtain rfl := Option.some.inj hstep
      refine ⟨by simp [hgif], by simp [hgif], ?_, ?_, ?_⟩
      · intro i hi
        simp only at hi
        rw [hc.1] at hi
        cases hi
      · intro _
        simpa using hc.1
      · intro hf
        simp at hf
    · rw [if_neg hc] at hstep
      obtain rfl := Option.some.inj hstep
      exact ⟨hg1, hg2, hg3, hinv1, hinv2⟩
  | genOk img =>
    rw [imgStep] at hstep
    by_cases hc : s.genInFlight = 0
    · rw [if_pos hc] at hstep
      cases hstep
    · rw [if_neg hc] at hstep
      obtain rfl := Option.some.inj hstep
      refine ⟨by simp; omega, by simp; omega, ?_, ?_, ?_⟩
      · intro i _
        simp
        omega
      · intro h
        simp at h
      · intro h
        simp at h
  | genFail =>
    rw [imgStep] at hstep
    by_cases hc : s.genInFlight = 0
    · rw [if_pos hc] at hstep
      cases hstep
    · rw [if_neg hc] at hstep
      have hin : s.inprog = true := hg2.2 (by omega)
      have himg : s.img = none := hinv1 hin
      obtain rfl := Option.some.inj hstep
      refine ⟨by simp; omega, by simp; omega, ?_, ?_, ?_⟩
      · intro i hi
        simp only at hi
        rw [himg] at hi
        cases hi
      · intro h
        simp at h
      · intro _
        simpa using himg
  | regen =>
    rw [imgStep] at hstep
    by_cases hc : s.img = none
    · rw [if_pos hc] at hstep
      cases hstep
    · rw [if_neg hc] at hstep
      have hgif : s.genInFlight = 0 := by
        rcases hi : s.img with - | i
        · exact absurd hi hc
        · exact hg3 i hi
      obtain rfl := Option.some.inj hstep
      refine ⟨by simp [hgif], by simp [hgif], by simp, by simp, by simp⟩
  | editStart =>
    rw [imgStep] at hstep
    by_cases hc : s.img = none ∨ s.editInFlight ≠ 0
    · rw [if_pos hc] at hstep
      cases hstep
    · rw [if_neg hc] at hstep
      obtain rfl := Option.some.inj hstep
      exact ⟨hg1, hg2, hg3, hinv1, hinv2⟩
  | editOk img =>
    simp [isEditOk] at hno
  | editFail =>
    rw [imgStep] at hstep
    by_cases hc : s.editInFlight = 0
    · rw [if_pos hc] at hstep
      cases hstep
    · rw [if_neg hc] at hstep
      obtain rfl := Option.some.inj hstep
      exact ⟨hg1, hg2, hg3, hinv1, hinv2⟩

theorem imgRun_preserves :
    ∀ (es : List ImgEvent) (s0 : ImageAxis), ImgInvStrong s0 →
      es.all (fun e => !isEditOk e) = true →
      ∀ s, imgRun s0 es = some s → ImgInvStrong s
  | [], s0, h0, _, s, hrun => by
    rw [imgRun, List.foldlM_nil] at hrun
    obtain rfl := Option.some.inj hrun
    exact h0
  | e :: es, s0, h0, hall, s, hrun => by
    rw [imgRun, List.foldlM_cons] at hrun
    rw [List.all_cons, Bool.and_eq_true] at hall
    rcases h1 : imgStep s0 e with - | s1
    · rw [h1] at hrun
      cases hrun
    · rw [h1] at hrun
      have hs1 : ImgInvStrong s1 :=
        imgStep_preserves s0 s1 e (by simpa using hall.1) h0 h1
      exact imgRun_preserves es s1 hs1 hall.2 s hrun

/-- C9 (amended).  Per-page image-axis invariant: in every state reachable
from a fresh page by any sequence of `triggerGeneration`, regenerate, and
image-generation completion/failure transitions — and image-edit starts and
failures, but *no image-edit success* — image-in-progress and image-present
are never both true, and a page with `hasError = true` has
`isGeneratingImage = false` and no image payload.  (The unamended claim,
which also admits image-edit success transitions, is refuted by
`C9_invariant_counterexample`: an edit completing after a regenerate has
cleared the image and a re-trigger has started a new generation restores a
payload while image-in-progress is true.) -/
theorem C9_image_axis_invariant (es : List ImgEvent)
    (hall : es.all (fun e => !isEditOk e) = true)
    (s : ImageAxis) (hrun : imgRun initImageAxis es = some s) :
    (s.inprog = true → s.img = none) ∧
    (s.failed = true → s.inprog = false ∧ s.img = none) :=
  (imgRun_preserves es initImageAxis
    ⟨by simp [initImageAxis], by simp [initImageAxis], by simp [initImageAxis],
      by simp [initImageAxis, ImgInv], by simp [initImageAxis, ImgInv]⟩
    hall s hrun).2.2.2

/-- Counterexample to C9 as stated: with image-edit transitions admitted, the
event sequence "trigger; generation succeeds; edit starts; regenerate;
trigger (the regenerate's deferred re-trigger); edit succeeds" — every step
enabled under the code's own guards — reaches a state whose image payload is
present while `isGeneratingImage` is true, violating the claimed mutual
exclusion. -/
theorem C9_invariant_counterexample :
    imgRun initImageAxis
      [.trig, .genOk "A", .editStart, .regen, .trig, .editOk "B"] =
      some ⟨some "B", true, false, 1, 0⟩ ∧
    ¬ ImgInv ⟨some "B", true, false, 1, 0⟩ ∧
    ¬ (∀ (es : List ImgEvent) (s : ImageAxis),
        imgRun initImageAxis es = some s → ImgInv s) := by
  refine ⟨by decide, by unfold ImgInv; decide, ?_⟩
  intro h
  exact absurd
    (h [.trig, .genOk "A", .editStart, .regen, .trig, .editOk "B"]
      ⟨some "B", true, false, 1, 0⟩ (by decide))
    (by unfold ImgInv; decide)

/-- Witness for the amended C9 at a concrete edit-free trace: trigger,
failure, retry-trigger, success, regenerate, trigger again; the reached state
(`in progress`, no payload, no error) satisfies the invariant. -/
theorem C9_image_axis_invariant_witness :
    ((⟨none, true, false, 1, 0⟩ : ImageAxis).inprog = true →
      (⟨none, true, false, 1, 0⟩ : ImageAxis).img = none) ∧
    ((⟨none, true, false, 1, 0⟩ : ImageAxis).failed = true →
      (⟨none, true, false, 1, 0⟩ : ImageAxis).inprog = false ∧
      (⟨none, true, false, 1, 0⟩ : ImageAxis).img = none) :=
  C9_image_axis_invariant
    [.trig, .genFail, .trig, .genOk "A", .regen, .trig]
    (by decide) ⟨none, true, false, 1, 0⟩ (by decide)

/-! ### The Sequential Request Queue (`RequestQueue` in geminiService.ts) -/

/-- External events driving the queue's event loop: `add` is a call to
`queue.add(task)` (the tasks are numbered by submission order), `complete` is
the settlement — fulfilment or rejection — of the task currently being
awaited, and `fire d` is the run of a `setTimeout(() => process(), 500)`
callback that was scheduled with deadline `d`. -/
inductive QAction where
  | add
  | complete
  | fire (deadline : Nat)
deriving DecidableEq, Repr

/-- The queue state plus its observable trace.  `backlog` and `isProcessing`
are the two fields of `RequestQueue`; `running` is the task currently being
awaited inside `process()`; `timers` holds the deadlines of pending cool-down
callbacks; `nextId` numbers submissions; `now` is the wall clock; `starts`
and `completes` record `(taskId, time)` for each task start and
completion. -/
structure QueueState where
  backlog : List Nat
  isProcessing : Bool
  running : Option Nat
  timers : List Nat
  nextId : Nat
  now : Nat
  starts : List (Nat × Nat)
  completes : List (Nat × Nat)
deriving DecidableEq, Repr

/-- The synchronous prelude of `process()`: up to its first `await` it runs
atomically on the single thread.

```
if (this.isProcessing || this.queue.length === 0) return;
this.isProcessing = true;
const task = this.queue.shift();
if (task) { await task(); }   // suspension: the task starts here
```

The shifted task starts executing at the current time; the continuation
after the `await` is modelled by the `complete` event. -/
def processSync (s : QueueState) : QueueState :=
  if s.isProcessing then s
  else
    match s.backlog with
    | [] => s
    | i :: rest =>
      { s with isProcessing := true, running := some i, backlog := rest, starts := s.starts ++ [(i, s.now)] }

/-- One event-loop step at wall-clock time `t` (valid only if time does not
run backwards):

* `add` — `add(task)` pushes the wrapped task and calls `this.process()`
  synchronously;
* `complete` — the awaited task settles; the `finally` block runs:
  `this.isProcessing = false; setTimeout(() => this.process(), 500);`
  (scheduling a cool-down callback with deadline `t + 500`), and the result is
  reported only to that task's own caller;
* `fire d` — a scheduled callback with deadline `d` runs (at or after `d`)
  and calls `process()`. -/
def qstep (s : QueueState) (t : Nat) (a : QAction) : Option QueueState :=
  if t < s.now then none
  else
    match a with
    | .add =>
      some (processSync { s with now := t, backlog := s.backlog ++ [s.nextId], nextId := s.nextId + 1 })
    | .complete =>
      match s.running with
      | some i =>
        some { s with now := t, running := none, isProcessing := false, completes := s.completes ++ [(i, t)], timers := s.timers ++ [t + 500] }
      | none => none
    | .fire d =>
      if d ∈ s.timers ∧ d ≤ t then
        some (processSync { s with now := t, timers := s.timers.erase d })
      else
        none

/-- A fresh `new RequestQueue()`. -/
def initQueue : QueueState := ⟨[], false, none, [], 0, 0, [], []⟩

/-- Run a timed schedule of queue events from the fresh queue. -/
def runQueue (es : List (Nat × QAction)) : Option QueueState :=
  es.foldlM (fun s e => qstep s e.1 e.2) initQueue

/-- The inductive invariant of the queue: the processing flag tracks the
running task; tasks start in submission order (`starts` lists ids
`0,1,...` in order and the backlog holds the next consecutive ids);
completions follow the same order; the running task is the last started one;
recorded times are bounded by the clock; and starts and completions strictly
alternate in time: `start k ≤ complete k ≤ start (k+1)`. -/
structure QueueInv (s : QueueState) : Prop where
  procEq : s.isProcessing = s.running.isSome
  startsIds : s.starts.map Prod.fst = List.range s.starts.length
  backlogIds : s.backlog = List.range' s.starts.length s.backlog.length
  nextIdEq : s.nextId = s.starts.length + s.backlog.length
  completesIds : s.completes.map Prod.fst = List.range s.completes.length
  runCount : match s.running with
    | some i => i + 1 = s.starts.length ∧ s.starts.length = s.completes.length + 1
    | none => s.starts.length = s.completes.length
  startTimesLe : ∀ p ∈ s.starts, p.2 ≤ s.now
  compTimesLe : ∀ p ∈ s.completes, p.2 ≤ s.now
  alt1 : ∀ k, k < s.completes.length →
    (s.starts.getD k (0, 0)).2 ≤ (s.completes.getD k (0, 0)).2
  alt2 : ∀ k, k + 1 < s.starts.length →
    k < s.completes.length ∧
    (s.completes.getD k (0, 0)).2 ≤ (s.starts.getD (k + 1) (0, 0)).2

theorem getD_mem_of_lt {α : Type} (l : List α) (k : Nat) (d : α)
    (h : k < l.length) : l.getD k d ∈ l := by
  rw [List.getD_eq_getElem _ _ h]
  exact List.getElem_mem h

theorem getD_concat_self {α : Type} (l : List α) (x d : α) :
    (l ++ [x]).getD l.length d = x := by
  rw [List.getD_append_right l [x] d l.length (le_refl _)]
  simp

theorem queueInv_init : QueueInv initQueue := by
  refine ⟨rfl, rfl, rfl, rfl, rfl, rfl, ?_, ?_, ?_, ?_⟩
  · intro p hp
    simp [initQueue] at hp
  · intro p hp
    simp [initQueue] at hp
  · intro k hk
    simp [initQueue] at hk
  · intro k hk
    simp [initQueue] at hk

theorem processSync_inv (s : QueueState) (h : QueueInv s) :
    QueueInv (processSync s) := by
  unfold processSync
  by_cases hp : s.isProcessing
  · rw [if_pos hp]
    exact h
  · rw [if_neg hp]
    rcases hb : s.backlog with - | ⟨i, rest⟩
    · exact h
    · show QueueInv { s with isProcessing := true, running := some i, backlog := rest, starts := s.starts ++ [(i, s.now)] }
      have hrun : s.running = none := by
        rcases hr : s.running with - | j
        · rfl
        · have hpe := h.procEq
          rw [hr] at hpe
          simp at hpe
          exact absurd hpe hp
      have hLC : s.starts.length = s.completes.length := by
        have hrc := h.runCount
        rw [hrun] at hrc
        exact hrc
      have hbl := h.backlogIds
      rw [hb, List.length_cons, List.range'_succ] at hbl
      have hi : i = s.starts.length := (List.cons.injEq .. ▸ hbl).1
      have hrest : rest = List.range' (s.starts.length + 1) rest.length :=
        (List.cons.injEq .. ▸ hbl).2
      have hnext := h.nextIdEq
      rw [hb, List.length_cons] at hnext
      refine ⟨rfl, ?_, ?_, ?_, h.completesIds, ?_, ?_, h.compTimesLe, ?_, ?_⟩
      · show (s.starts ++ [(i, s.now)]).map Prod.fst =
          List.range (s.starts ++ [(i, s.now)]).length
        rw [List.map_append, h.startsIds, List.length_append]
        simp [hi, List.range_succ]
      · show rest = List.range' (s.starts ++ [(i, s.now)]).length rest.length
        rw [List.length_append]
        simpa using hrest
      · show s.nextId = (s.starts ++ [(i, s.now)]).length + rest.length
        rw [List.length_append]
        simp only [List.length_singleton]
        omega
      · show i + 1 = (s.starts ++ [(i, s.now)]).length ∧
          (s.starts ++ [(i, s.now)]).length = s.completes.length + 1
        rw [List.length_append]
        simp only [List.length_singleton]
        omega
      · intro p hpmem
        rcases List.mem_append.1 hpmem with hmem | hmem
        · exact h.startTimesLe p hmem
        · rw [List.mem_singleton] at hmem
          rw [hmem]
      · intro k hk
        replace hk : k < s.completes.length := hk
        show (( s.starts ++ [(i, s.now)]).getD k (0, 0)).2 ≤ (s.completes.getD k (0, 0)).2
        rw [List.getD_append _ _ _ _ (by omega)]
        exact h.alt1 k hk
      · intro k hk
        replace hk : k + 1 < (s.starts ++ [(i, s.now)]).length := hk
        rw [List.length_append, List.length_singleton] at hk
        rcases Nat.lt_or_ge (k + 1) s.starts.length with hlt | hge
        · have h2 := h.alt2 k hlt
          refine ⟨h2.1, ?_⟩
          show (s.completes.getD k (0, 0)).2 ≤ ((s.starts ++ [(i, s.now)]).getD (k + 1) (0, 0)).2
          rw [List.getD_append _ _ _ _ hlt]
          exact h2.2
        · have hk1 : k + 1 = s.starts.length := by omega
          refine ⟨show k < s.completes.length by omega, ?_⟩
          show (s.completes.getD k (0, 0)).2 ≤ ((s.starts ++ [(i, s.now)]).getD (k + 1) (0, 0)).2
          rw [hk1, getD_concat_self]
          exact h.compTimesLe _ (getD_mem_of_lt _ _ _ (by omega))

theorem qstep_inv (s : QueueState) (t : Nat) (a : QAction) (s' : QueueState)
    (h : QueueInv s) (hstep : qstep s t a = some s') : QueueInv s' := by
  unfold qstep at hstep
  by_cases ht : t < s.now
  · rw [if_pos ht] at hstep
    cases hstep
  · rw [if_neg ht] at hstep
    have hnow : s.now ≤ t := by omega
    cases a with
    | add =>
      obtain rfl := Option.some.inj hstep
      apply processSync_inv
      refine ⟨h.procEq, h.startsIds, ?_, ?_, h.completesIds, h.runCount, ?_, ?_, h.alt1, h.alt2⟩
      · show s.backlog ++ [s.nextId] =
          List.range' s.starts.length (s.backlog ++ [s.nextId]).length
        rw [List.length_append, List.length_singleton, List.range'_1_concat,
          ← h.backlogIds, h.nextIdEq]
      · show s.nextId + 1 = s.starts.length + (s.backlog ++ [s.nextId]).length
        rw [List.length_append, List.length_singleton]
        have hne := h.nextIdEq
        omega
      · intro p hp
        exact le_trans (h.startTimesLe p hp) hnow
      · intro p hp
        exact le_trans (h.compTimesLe p hp) hnow
    | complete =>
      rcases hr : s.running with - | i
      · rw [hr] at hstep
        cases hstep
      · rw [hr] at hstep
        obtain rfl := Option.some.inj hstep
        have hrc := h.runCount
        rw [hr] at hrc
        have hiC : i = s.completes.length := by omega
        refine ⟨rfl, h.startsIds, h.backlogIds, h.nextIdEq, ?_, ?_, ?_, ?_, ?_, ?_⟩
        · show (s.completes ++ [(i, t)]).map Prod.fst =
            List.range (s.completes ++ [(i, t)]).length
          rw [List.map_append, h.completesIds, List.length_append]
          simp [hiC, List.range_succ]
        · show s.starts.length = (s.completes ++ [(i, t)]).length
          rw [List.length_append, List.length_singleton]
          omega
        · intro p hp
          exact le_trans (h.startTimesLe p hp) hnow
        · intro p hp
          rcases List.mem_append.1 hp with hmem | hmem
          · exact le_trans (h.compTimesLe p hmem) hnow
          · rw [List.mem_singleton] at hmem
            rw [hmem]
        · intro k hk
          replace hk : k < (s.completes ++ [(i, t)]).length := hk
          rw [List.length_append, List.length_singleton] at hk
          rcases Nat.lt_or_ge k s.completes.length with hlt | hge
          · show (s.starts.getD k (0, 0)).2 ≤ ((s.completes ++ [(i, t)]).getD k (0, 0)).2
            rw [List.getD_append _ _ _ _ hlt]
            exact h.alt1 k hlt
          · have hkC : k = s.completes.length := by omega
            show (s.starts.getD k (0, 0)).2 ≤ ((s.completes ++ [(i, t)]).getD k (0, 0)).2
            rw [hkC, getD_concat_self]
            exact le_trans
              (h.startTimesLe _ (getD_mem_of_lt _ _ _ (by omega))) hnow
        · intro k hk
          replace hk : k + 1 < s.starts.length := hk
          have h2 := h.alt2 k hk
          refine ⟨show k < (s.completes ++ [(i, t)]).length by
            rw [List.length_append, List.length_singleton]; omega, ?_⟩
          show ((s.completes ++ [(i, t)]).getD k (0, 0)).2 ≤ (s.starts.getD (k + 1) (0, 0)).2
          rw [List.getD_append _ _ _ _ h2.1]
          exact h2.2
    | fire d =>
      replace hstep :
          (if d ∈ s.timers ∧ d ≤ t then
            some (processSync { s with now := t, timers := s.timers.erase d })
          else none) = some s' := hstep
      by_cases hc : d ∈ s.timers ∧ d ≤ t
      · rw [if_pos hc] at hstep
        obtain rfl := Option.some.inj hstep
        apply processSync_inv
        refine ⟨h.procEq, h.startsIds, h.backlogIds, h.nextIdEq, h.completesIds, h.runCount, ?_, ?_, h.alt1, h.alt2⟩
        · intro p hp
          exact le_trans (h.startTimesLe p hp) hnow
        · intro p hp
          exact le_trans (h.compTimesLe p hp) hnow
      · rw [if_neg hc] at hstep
        cases hstep

theorem runQueue_inv :
    ∀ (es : List (Nat × QAction)) (s0 : QueueState), QueueInv s0 →
      ∀ s, es.foldlM (fun s e => qstep s e.1 e.2) s0 = some s → QueueInv s
  | [], s0, h0, s, hrun => by
    rw [List.foldlM_nil] at hrun
    obtain rfl := Option.some.inj hrun
    exact h0
  | e :: es, s0, h0, s, hrun => by
    rw [List.foldlM_cons] at hrun
    rcases h1 : qstep s0 e.1 e.2 with - | s1
    · rw [h1] at hrun
      cases hrun
    · rw [h1] at hrun
      exact runQueue_inv es s1 (qstep_inv s0 e.1 e.2 s1 h0 h1) s hrun

/-- C1 exactly as stated, formalized over the queue model: on every valid
schedule, tasks start in submission order AND every task waits for its
predecessor's completion plus the full 500ms cool-down. -/
def C1ClaimAsStated : Prop :=
  ∀ (es : List (Nat × QAction)) (s : QueueState), runQueue es = some s →
    s.starts.map Prod.fst = List.range s.starts.length ∧
    ∀ k, k + 1 < s.starts.length →
      k < s.completes.length ∧
      (s.completes.getD k (0, 0)).2 + 500 ≤ (s.starts.getD (k + 1) (0, 0)).2

/-- Counterexample to the cool-down part of C1: submit T1 at t=0 (it starts
at once), complete it at t=100 (a cool-down callback is scheduled for
t=600), then submit T2 at t=200.  `add` calls `process()` synchronously,
`isProcessing` is already false and the backlog is non-empty, so T2 starts at
t=200 — only 100ms after T1 completed, not the claimed 600ms.  The schedule
and the violating state are computed concretely. -/
theorem C1_cooldown_counterexample :
    runQueue [(0, .add), (100, .complete), (200, .add)] =
      some ⟨[], true, some 1, [600], 2, 200, [(0, 0), (1, 200)], [(0, 100)]⟩ ∧
    (200 : Nat) < 100 + 500 ∧
    ¬ C1ClaimAsStated := by
  refine ⟨by decide, by decide, ?_⟩
  intro h
  have h2 := (h [(0, .add), (100, .complete), (200, .add)]
    ⟨[], true, some 1, [600], 2, 200, [(0, 0), (1, 200)], [(0, 100)]⟩
    (by decide)).2 0 (by decide)
  exact absurd h2.2 (by decide)

/-- C1 (amended).  Sequential queue ordering: for every valid schedule of
submissions, completions and timer runs, the tasks that have started did so
strictly one-at-a-time in submission order (FIFO) — the recorded start list
is exactly tasks `0, 1, 2, ...` in order — each task starts no later than it
completes, and task `k+1` starts only after task `k` has completed (so no
two tasks ever overlap).  The fixed 500ms cool-down claimed between a
completion and the next dispatch does NOT always hold: it is enforced only
when the next dispatch comes from the cool-down timer; a submission arriving
during the cool-down window dispatches the next task immediately
(`C1_cooldown_counterexample`). -/
theorem C1_queue_fifo (es : List (Nat × QAction)) (s : QueueState)
    (hrun : runQueue es = some s) :
    s.starts.map Prod.fst = List.range s.starts.length ∧
    (∀ k, k < s.completes.length →
      (s.starts.getD k (0, 0)).2 ≤ (s.completes.getD k (0, 0)).2) ∧
    (∀ k, k + 1 < s.starts.length →
      k < s.completes.length ∧
      (s.completes.getD k (0, 0)).2 ≤ (s.starts.getD (k + 1) (0, 0)).2) := by
  have h := runQueue_inv es initQueue queueInv_init s hrun
  exact ⟨h.startsIds, h.alt1, h.alt2⟩

/-- Witness for the amended C1 on a concrete schedule: two tasks submitted
together at t=0, the first completing at t=100, the second dispatched by the
cool-down timer at t=600 and completing at t=650. -/
theorem C1_queue_fifo_witness :
    (QueueState.starts ⟨[], false, none, [1150], 2, 650, [(0, 0), (1, 600)], [(0, 100), (1, 650)]⟩).map Prod.fst =
      List.range (QueueState.starts ⟨[], false, none, [1150], 2, 650, [(0, 0), (1, 600)], [(0, 100), (1, 650)]⟩).length ∧
    (∀ k, k < (QueueState.completes ⟨[], false, none, [1150], 2, 650, [(0, 0), (1, 600)], [(0, 100), (1, 650)]⟩).length →
      ((QueueState.starts ⟨[], false, none, [1150], 2, 650, [(0, 0), (1, 600)], [(0, 100), (1, 650)]⟩).getD k (0, 0)).2 ≤
        ((QueueState.completes ⟨[], false, none, [1150], 2, 650, [(0, 0), (1, 600)], [(0, 100), (1, 650)]⟩).getD k (0, 0)).2) ∧
    (∀ k, k + 1 < (QueueState.starts ⟨[], false, none, [1150], 2, 650, [(0, 0), (1, 600)], [(0, 100), (1, 650)]⟩).length →
      k < (QueueState.completes ⟨[], false, none, [1150], 2, 650, [(0, 0), (1, 600)], [(0, 100), (1, 650)]⟩).length ∧
      ((QueueState.completes ⟨[], false, none, [1150], 2, 650, [(0, 0), (1, 600)], [(0, 100), (1, 650)]⟩).getD k (0, 0)).2 ≤
        ((QueueState.starts ⟨[], false, none, [1150], 2, 650, [(0, 0), (1, 600)], [(0, 100), (1, 650)]⟩).getD (k + 1) (0, 0)).2) :=
  C1_queue_fifo [(0, .add), (0, .add), (100, .complete), (600, .fire 600), (650, .complete)]
    ⟨[], false, none, [1150], 2, 650, [(0, 0), (1, 600)], [(0, 100), (1, 650)]⟩
    (by decide)
